import Mathlib

/-!
Shallow embedding of the NLP-based product-search backend (`src/main.py`).

The embedding models the query-understanding pipeline (`parse_query_with_nlp`,
`parse_query_fallback`), the Elasticsearch clause builder and the MongoDB
fallback query builder inside `search_products`, and the rescorer
`apply_nlp_scoring`.

Modelling conventions:
* Python floats are modelled as `ℚ` (all constants in the source are small
  decimals; no claim depends on binary floating-point rounding).
* Python `re.search` over the fixed price patterns (literal words joined by
  `\s+`/`\s*` and a final `(\d+)` group or interpolated entity text) is
  modelled by an executable matcher with leftmost-match, greedy semantics,
  which agrees with Python `re` on these patterns.  Entity text interpolated
  into a pattern is treated as a literal (the source is known-fragile when the
  entity text contains regex metacharacters).
* Python truthiness of optional numbers (`if filters["price_max"]:`) is
  modelled by `pyTruthyInt` (`None` and `0` are falsy); truthiness of optional
  strings by `optTruthy` (`None` and `""` are falsy).
* spaCy is an external collaborator: its per-token annotations and entity
  spans are inputs (`Doc`); `nlp = None` (model unavailable) is the `none`
  case of the `Option Doc` argument.
-/

namespace NLPSearch

/-- Python `\s` (ASCII whitespace as used by `str.split` / `str.strip` / `re \s`). -/
def isPySpace (c : Char) : Bool :=
  c = ' ' || c = '\t' || c = '\n' || c = '\r' || c = '\x0b' || c = '\x0c'

/-- Python `str.lower` (ASCII case folding; queries in this system are ASCII). -/
def pyLower (s : String) : String := String.mk (s.toList.map Char.toLower)

/-- Python `str.strip` on a character list. -/
def charsStrip (cs : List Char) : List Char :=
  ((cs.dropWhile isPySpace).reverse.dropWhile isPySpace).reverse

/-- Python `str.strip`. -/
def pyStrip (s : String) : String := String.mk (charsStrip s.toList)

/-- Python `needle in hay` on character lists (substring containment). -/
def charsContains (needle : List Char) : List Char → Bool
  | [] => needle.isEmpty
  | c :: t => needle.isPrefixOf (c :: t) || charsContains needle t

/-- Python `needle in hay` for strings. -/
def strContains (hay needle : String) : Bool :=
  charsContains needle.toList hay.toList

/-- Python `str.split()` (split on whitespace runs, dropping empty pieces). -/
def splitWsAux : List Char → List Char → List (List Char)
  | [], acc => if acc.isEmpty then [] else [acc.reverse]
  | c :: rest, acc =>
    if isPySpace c then
      if acc.isEmpty then splitWsAux rest []
      else acc.reverse :: splitWsAux rest []
    else splitWsAux rest (c :: acc)

/-- Python `str.split()` on a string. -/
def splitWs (s : String) : List String :=
  (splitWsAux s.toList []).map String.mk

/-- Truthiness of an optional Python string (`None` and `""` are falsy). -/
def optTruthy : Option String → Option String
  | some s => if s = "" then none else some s
  | none => none

/-- Truthiness of an optional Python number (`None` and `0` are falsy). -/
def pyTruthyInt : Option Int → Bool
  | some v => v ≠ 0
  | none => false

/-- Digits of a captured `(\d+)` group, as a number. -/
def digitsToNat (ds : List Char) : Nat :=
  ds.foldl (fun n c => n * 10 + (c.toNat - 48)) 0

/-- Python `int(s)` for the simple forms that occur here: optional
whitespace, an optional sign, then digits.  Returns `none` when `int` would
raise `ValueError`. -/
def pyInt (s : String) : Option Int :=
  match charsStrip s.toList with
  | [] => none
  | '+' :: ds => if ds ≠ [] ∧ ds.all Char.isDigit then some (digitsToNat ds) else none
  | '-' :: ds => if ds ≠ [] ∧ ds.all Char.isDigit then some (-(digitsToNat ds : Int)) else none
  | ds => if ds.all Char.isDigit then some (digitsToNat ds) else none

/-- `re.search(r'(\d+)', s)`: the first maximal digit run in `s`. -/
def firstDigitRun : List Char → Option (List Char)
  | [] => none
  | c :: rest =>
    if c.isDigit then some (c :: rest.takeWhile Char.isDigit)
    else firstDigitRun rest

/-- One token of a price regex: a literal, `\s+`, `\s*`, or the `(\d+)` group. -/
inductive RTok where
  | lit (s : List Char)
  | ws1
  | ws0
  | digits
  deriving DecidableEq

/-- A price pattern is a token sequence (at most one `digits` group, always last). -/
def Pattern := List RTok

/-- Match a pattern at the start of `cs`; returns the `(\d+)` capture
(`[]` when the pattern has no group).  Greedy quantifier semantics, which
coincides with Python `re` on these patterns (the character classes of
adjacent tokens are disjoint). -/
def matchAt : List RTok → List Char → Option (List Char)
  | [], _ => some []
  | RTok.lit s :: ps, cs =>
    if s.isPrefixOf cs then matchAt ps (cs.drop s.length) else none
  | RTok.ws1 :: ps, cs =>
    let w := cs.takeWhile isPySpace
    if w.isEmpty then none else matchAt ps (cs.drop w.length)
  | RTok.ws0 :: ps, cs => matchAt ps (cs.dropWhile isPySpace)
  | RTok.digits :: ps, cs =>
    let d := cs.takeWhile Char.isDigit
    if d.isEmpty then none else (matchAt ps (cs.drop d.length)).map (fun _ => d)

/-- `re.search`: try the pattern at each position, leftmost match wins. -/
def searchCapt (p : Pattern) : List Char → Option (List Char)
  | [] => matchAt p []
  | c :: rest =>
    match matchAt p (c :: rest) with
    | some d => some d
    | none => searchCapt p rest

/-- First pattern in the list that matches; returns its captured number. -/
def firstCapt : List Pattern → List Char → Option Nat
  | [], _ => none
  | p :: ps, cs =>
    match searchCapt p cs with
    | some d => some (digitsToNat d)
    | none => firstCapt ps cs

/-- Whether any pattern in the list matches somewhere in `cs`. -/
def anyHit (pats : List Pattern) (cs : List Char) : Bool :=
  pats.any (fun p => (searchCapt p cs).isSome)

/-- A literal pattern token from a string. -/
def pw (w : String) : RTok := RTok.lit w.toList

/-- Entity under-patterns of `parse_query_with_nlp` (lines 198–205):
`under\s+<c>`, …, with the CARDINAL entity text interpolated as a literal. -/
def underCard (c : String) : List Pattern :=
  [[pw "under", .ws1, pw c],
   [pw "below", .ws1, pw c],
   [pw "less", .ws1, pw "than", .ws1, pw c],
   [pw "<", .ws0, pw c],
   [pw "max", .ws1, pw c],
   [pw "budget", .ws1, pw c]]

/-- Entity over-patterns of `parse_query_with_nlp` (lines 207–214). -/
def overCard (c : String) : List Pattern :=
  [[pw "over", .ws1, pw c],
   [pw "above", .ws1, pw c],
   [pw "more", .ws1, pw "than", .ws1, pw c],
   [pw ">", .ws0, pw c],
   [pw "min", .ws1, pw c],
   [pw "minimum", .ws1, pw c]]

/-- Plain-regex under-patterns of `parse_query_with_nlp` (lines 244–251). -/
def underNLP : List Pattern :=
  [[pw "under", .ws1, .digits],
   [pw "below", .ws1, .digits],
   [pw "less", .ws1, pw "than", .ws1, .digits],
   [pw "<", .ws0, .digits],
   [pw "max", .ws1, .digits],
   [pw "budget", .ws1, .digits]]

/-- Plain-regex over-patterns of `parse_query_with_nlp` (lines 253–260). -/
def overNLP : List Pattern :=
  [[pw "over", .ws1, .digits],
   [pw "above", .ws1, .digits],
   [pw "more", .ws1, pw "than", .ws1, .digits],
   [pw ">", .ws0, .digits],
   [pw "min", .ws1, .digits],
   [pw "minimum", .ws1, .digits]]

/-- Under-patterns of `parse_query_fallback` (lines 385–394). -/
def underFB : List Pattern :=
  [[pw "under", .ws1, .digits],
   [pw "below", .ws1, .digits],
   [pw "less", .ws1, pw "than", .ws1, .digits],
   [pw "<", .ws0, .digits],
   [pw "price", .ws1, pw "<", .ws0, .digits],
   [pw "max", .ws1, .digits],
   [pw "maximum", .ws1, .digits],
   [pw "budget", .ws1, .digits]]

/-- Over-patterns of `parse_query_fallback` (lines 396–404). -/
def overFB : List Pattern :=
  [[pw "over", .ws1, .digits],
   [pw "above", .ws1, .digits],
   [pw "more", .ws1, pw "than", .ws1, .digits],
   [pw ">", .ws0, .digits],
   [pw "price", .ws1, pw ">", .ws0, .digits],
   [pw "min", .ws1, .digits],
   [pw "minimum", .ws1, .digits]]

/-- Python dict lookup on an association list built by `dictUpsert`. -/
def dictGet (l : List (String × String)) (k : String) : Option String :=
  (l.find? (fun p => p.1 = k)).map (fun p => p.2)

/-- Python dict assignment `d[k] = v`: replace in place when the key exists,
append otherwise (insertion order preserved). -/
def dictUpsert (l : List (String × String)) (k v : String) : List (String × String) :=
  if l.any (fun p => p.1 = k) then
    l.map (fun p => if p.1 = k then (k, v) else p)
  else l ++ [(k, v)]

/-- The entity-based price stage of `parse_query_with_nlp` (lines 188–241):
a MONEY entity yields `price_max` from its first digit run; otherwise a
CARDINAL entity is tested against the ordered under-patterns (→ `price_max`)
and, only when none matched, the over-patterns (→ `price_min`).  A CARDINAL
text that `int` cannot parse sets nothing (`ValueError` is swallowed). -/
def extractPriceEntities (ents : List (String × String)) (cs : List Char) :
    Option Int × Option Int :=
  match optTruthy (dictGet ents "MONEY") with
  | some m =>
    (match firstDigitRun m.toList with
     | some ds => (some (digitsToNat ds : Int), none)
     | none => (none, none))
  | none =>
    match optTruthy (dictGet ents "CARDINAL") with
    | some c =>
      (match pyInt c with
       | some v =>
         if anyHit (underCard c) cs then (some v, none)
         else if anyHit (overCard c) cs then (none, some v)
         else (none, none)
       | none => (none, none))
    | none => (none, none)

/-- The plain-regex price stage shared by both parsers: runs only when both
bounds are falsy (`None` or `0`); the under-list is tried first, and the
over-list only when `price_max` is still falsy afterwards.  Matches lines
243–275 (annotated, with the outer truthiness guard) and lines 406–417
(degraded, where both bounds start as `None` so the guard is vacuous). -/
def applyRegexFallback (under over : List Pattern) (cs : List Char)
    (pm pn : Option Int) : Option Int × Option Int :=
  if pyTruthyInt pm || pyTruthyInt pn then (pm, pn)
  else
    let pm1 : Option Int :=
      match firstCapt under cs with
      | some v => some (v : Int)
      | none => pm
    if pyTruthyInt pm1 then (pm1, pn)
    else
      match firstCapt over cs with
      | some v => (pm1, some (v : Int))
      | none => (pm1, pn)

/-- Full price extraction of the annotated path (lines 188–275). -/
def extractPriceNLP (ents : List (String × String)) (cs : List Char) :
    Option Int × Option Int :=
  let p0 := extractPriceEntities ents cs
  applyRegexFallback underNLP overNLP cs p0.1 p0.2

/-- Price extraction of the degraded path (lines 385–417). -/
def extractPriceFB (cs : List Char) : Option Int × Option Int :=
  applyRegexFallback underFB overFB cs none none

/-! ### Attribute dictionaries (annotated path, lines 74–115) -/

/-- `brand_entities` (lines 74–85). -/
def brand_entities : List (String × List String) :=
  [("nike", ["nike", "air jordan", "jordan brand", "swoosh"]),
   ("adidas", ["adidas", "three stripes", "trefoil", "adi"]),
   ("puma", ["puma", "cat", "fuma"]),
   ("reebok", ["reebok", "rbk"]),
   ("converse", ["converse", "chuck taylor", "all star", "chuck"]),
   ("vans", ["vans", "off the wall"]),
   ("new balance", ["new balance", "nb", "newbalance"]),
   ("mizuno", ["mizuno"]),
   ("asics", ["asics", "tiger"]),
   ("under armour", ["under armour", "ua", "underarmour"])]

/-- `color_entities` (lines 87–99). -/
def color_entities : List (String × List String) :=
  [("black", ["black", "ebony", "charcoal", "dark", "jet black"]),
   ("white", ["white", "ivory", "cream", "off-white", "snow", "pearl"]),
   ("red", ["red", "crimson", "burgundy", "scarlet", "cherry", "rose red"]),
   ("blue", ["blue", "navy", "cobalt", "azure", "royal blue", "sky blue"]),
   ("green", ["green", "emerald", "olive", "forest", "lime"]),
   ("yellow", ["yellow", "gold", "golden", "amber", "sunshine"]),
   ("pink", ["pink", "rose", "magenta", "fuchsia", "blush"]),
   ("purple", ["purple", "violet", "lavender", "plum", "indigo"]),
   ("brown", ["brown", "tan", "beige", "khaki", "chocolate", "camel"]),
   ("grey", ["grey", "gray", "silver", "slate", "charcoal gray"]),
   ("orange", ["orange", "coral", "peach", "burnt orange"])]

/-- `category_entities` (lines 101–109). -/
def category_entities : List (String × List String) :=
  [("sneakers", ["sneakers", "trainers", "athletic shoes", "sports shoes",
                 "running shoes", "runners", "kicks"]),
   ("flats", ["flats", "ballet flats", "loafers", "slip-ons"]),
   ("boots", ["boots", "ankle boots", "combat boots", "winter boots", "hiking boots"]),
   ("sandals", ["sandals", "flip flops", "slippers", "slides"]),
   ("heels", ["heels", "high heels", "stilettos", "pumps", "wedges"]),
   ("casual shoes", ["casual", "everyday shoes", "walking shoes"]),
   ("formal shoes", ["formal", "dress shoes", "office shoes", "oxfords"])]

/-- `gender_entities` (lines 111–115). -/
def gender_entities : List (String × List String) :=
  [("women", ["women", "female", "girls", "ladies", "womens", "woman"]),
   ("men", ["men", "male", "boys", "mens", "guys", "man"]),
   ("unisex", ["unisex", "both", "all", "universal"])]

/-! ### Attribute dictionaries (degraded path, lines 304–347) -/

/-- `category_synonyms` (lines 304–312). -/
def category_synonyms : List (String × List String) :=
  [("sneakers", ["sneakers", "trainers", "athletic shoes", "sports shoes", "running shoes"]),
   ("flats", ["flats", "ballet flats", "loafers"]),
   ("boots", ["boots", "ankle boots", "combat boots", "winter boots"]),
   ("sandals", ["sandals", "flip flops", "slippers"]),
   ("heels", ["heels", "high heels", "stilettos", "pumps"]),
   ("casual shoes", ["casual", "everyday shoes"]),
   ("formal shoes", ["formal", "dress shoes", "office shoes"])]

/-- `brand_synonyms` (lines 316–327). -/
def brand_synonyms : List (String × List String) :=
  [("nike", ["nike", "air jordan", "jordan"]),
   ("adidas", ["adidas", "three stripes"]),
   ("puma", ["puma"]),
   ("reebok", ["reebok"]),
   ("converse", ["converse", "chuck taylor", "all star"]),
   ("vans", ["vans"]),
   ("new balance", ["new balance", "nb"]),
   ("mizuno", ["mizuno"]),
   ("asics", ["asics"]),
   ("under armour", ["under armour", "ua"])]

/-- `color_synonyms` (lines 329–341). -/
def color_synonyms : List (String × List String) :=
  [("red", ["red", "crimson", "burgundy", "scarlet"]),
   ("blue", ["blue", "navy", "cobalt", "azure"]),
   ("black", ["black", "ebony", "charcoal"]),
   ("white", ["white", "ivory", "cream", "off-white"]),
   ("green", ["green", "emerald", "olive"]),
   ("yellow", ["yellow", "gold", "golden"]),
   ("pink", ["pink", "rose", "magenta"]),
   ("purple", ["purple", "violet", "lavender"]),
   ("brown", ["brown", "tan", "beige", "khaki"]),
   ("grey", ["grey", "gray", "silver"]),
   ("orange", ["orange", "coral", "peach"])]

/-- `gender_synonyms` (lines 343–347). -/
def gender_synonyms : List (String × List String) :=
  [("women", ["women", "female", "girls", "ladies", "womens"]),
   ("men", ["men", "male", "boys", "mens", "guys"]),
   ("unisex", ["unisex", "both", "all"])]

/-- `shoe_terms` used in brand context scoring (line 146). -/
def shoe_terms : List String := ["shoes", "sneakers", "boots", "footwear", "kicks"]

/-! ### Annotator output (spaCy collaborator interface) -/

/-- A dependency child of a token (only its text and coarse POS are read). -/
structure SubTok where
  text : String
  pos : String
  deriving DecidableEq

/-- One spaCy token, as consumed by `parse_query_with_nlp` (lines 128–138);
`lem` models `token.lemma_` and `stop` models `token.is_stop`. -/
structure Token where
  text : String
  pos : String
  lem : String
  stop : Bool
  children : List SubTok
  deriving DecidableEq

/-- One named-entity span (label and text). -/
structure Ent where
  label : String
  text : String
  deriving DecidableEq

/-- The annotator output for a query. -/
structure Doc where
  tokens : List Token
  ents : List Ent
  deriving DecidableEq

/-- The noun-phrase / adjective-modifier computation for one token
(lines 128–135): a NOUN token's phrase is built by prefixing each ADJ child's
text in child order, recording `(adjective, phrase-so-far)` pairs. -/
def nounStep (t : Token) : List (String × String) × Option String :=
  if t.pos = "NOUN" then
    let res := t.children.foldl
      (fun (st : String × List (String × String)) ch =>
        if ch.pos = "ADJ" then
          let adjL := pyLower ch.text
          (adjL ++ " " ++ st.1, st.2 ++ [(adjL, st.1)])
        else st)
      (pyLower t.text, [])
    (res.2, some res.1)
  else ([], none)

/-- All noun phrases of the document, in token order. -/
def noun_phrases_of (ts : List Token) : List String :=
  ts.filterMap (fun t => (nounStep t).2)

/-- All adjective-modifier pairs of the document, in token order. -/
def adjective_modifiers_of (ts : List Token) : List (String × String) :=
  (ts.map (fun t => (nounStep t).1)).flatten

/-- Keywords of the annotated path (lines 137–138): NOUN/ADJ/PROPN tokens,
not stop words, text longer than 2 characters, lowercased lemma. -/
def keywords_of (ts : List Token) : List String :=
  (ts.filter (fun t =>
    (t.pos = "NOUN" || t.pos = "ADJ" || t.pos = "PROPN") &&
    !t.stop && t.text.length > 2)).map (fun t => pyLower t.lem)

/-! ### Confidence accumulation (annotated path, lines 140–186) -/

/-- Context score of one matched brand variant (lines 144–151). -/
def brandVariantScore (ql : String) (v : String) : ℚ :=
  1 + (if shoe_terms.any (fun t => strContains ql t) then 0.5 else 0)
    + (if v = pyStrip ql || strContains (" " ++ ql ++ " ") (" " ++ v ++ " ")
       then 0.3 else 0)

/-- Confidence of one matched color variant (lines 162–165): `1.0` plus `0.5`
for each adjective-modifier pair whose adjective contains the variant and
whose noun phrase contains a shoe word. -/
def colorVariantScore (mods : List (String × String)) (v : String) : ℚ :=
  mods.foldl
    (fun s an =>
      if strContains an.1 v &&
         (["shoe", "sneaker", "boot"].any (fun w => strContains an.2 w))
      then s + 0.5 else s)
    1

/-- Confidence of one matched category variant (lines 175–177): `1.0` plus
`0.3` when the variant appears verbatim among the noun phrases. -/
def categoryVariantScore (nps : List String) (v : String) : ℚ :=
  1 + (if nps.contains v then 0.3 else 0)

/-- Accumulate a confidence map over a dictionary: each canonical value whose
variants match the query as substrings gets the sum of its matched variants'
scores; dictionary order is preserved (Python dict insertion order). -/
def accumConf (ql : String) (dict : List (String × List String))
    (score : String → ℚ) : List (String × ℚ) :=
  dict.filterMap (fun e =>
    let ms := e.2.filter (fun v => strContains ql v)
    if ms.isEmpty then none
    else some (e.1, (ms.map score).sum))

/-- `brand_confidence` (lines 140–153). -/
def brand_conf_of (ql : String) : List (String × ℚ) :=
  accumConf ql brand_entities (brandVariantScore ql)

/-- `color_confidence` (lines 158–166). -/
def color_conf_of (ql : String) (mods : List (String × String)) : List (String × ℚ) :=
  accumConf ql color_entities (colorVariantScore mods)

/-- `category_confidence` (lines 171–178). -/
def category_conf_of (ql : String) (nps : List String) : List (String × ℚ) :=
  accumConf ql category_entities (categoryVariantScore nps)

/-- Python `max(items, key=lambda x: x[1])[0]` on a nonempty map, `None` on an
empty one: the first key of maximal score in insertion order. -/
def argmaxFirst (l : List (String × ℚ)) : Option String :=
  match l.foldl
    (fun best p =>
      match best with
      | none => some p
      | some b => if p.2 > b.2 then some p else some b)
    none with
  | some b => some b.1
  | none => none

/-- First dictionary entry any of whose synonyms occurs in the query
(the gender loop, lines 183–186, and the degraded resolution loops). -/
def resolveFirst (dict : List (String × List String)) (ql : String) : Option String :=
  (dict.find? (fun e => e.2.any (fun v => strContains ql v))).map (fun e => e.1)

/-! ### The Filter Set -/

/-- `semantic_analysis` (lines 277–283); present exactly on the annotated path. -/
structure Semantic where
  noun_phrases : List String
  adjective_modifiers : List (String × String)
  brand_confidence : List (String × ℚ)
  color_confidence : List (String × ℚ)
  category_confidence : List (String × ℚ)
  deriving DecidableEq

/-- The Filter Set produced by query interpretation (`filters` dict).
`semantic = none` models the degraded dict, which has no
`semantic_analysis` (and no `entities`) key; the degraded `entities` field is
therefore fixed to `[]` and never read downstream. -/
structure Filters where
  category : Option String
  brand : Option String
  color : Option String
  price_max : Option Int
  price_min : Option Int
  gender : Option String
  keywords : List String
  entities : List (String × String)
  semantic : Option Semantic
  deriving DecidableEq

/-- `parse_query_fallback` (lines 290–419).  The argument is the lowercased
query (the caller passes `query_lower`). -/
def parse_query_fallback (ql : String) : Filters :=
  let words := ((splitWs ql).map pyStrip).filter (fun w => w.length > 2)
  let pr := extractPriceFB ql.toList
  { category := resolveFirst category_synonyms ql
    brand := resolveFirst brand_synonyms ql
    color := resolveFirst color_synonyms ql
    price_max := pr.1
    price_min := pr.2
    gender := resolveFirst gender_synonyms ql
    keywords := words
    entities := []
    semantic := none }

/-- `parse_query_with_nlp` (lines 59–288).  The annotator is the external
spaCy collaborator: `doc = some d` is its output for the query, `doc = none`
models `nlp = None` (model unavailable), which selects the degraded parser. -/
def parse_query_with_nlp (doc : Option Doc) (query : String) : Filters :=
  let ql := pyLower query
  match doc with
  | some d =>
    let entsD := d.ents.foldl (fun acc e => dictUpsert acc e.label (pyLower e.text)) []
    let nps := noun_phrases_of d.tokens
    let mods := adjective_modifiers_of d.tokens
    let bc := brand_conf_of ql
    let cc := color_conf_of ql mods
    let gc := category_conf_of ql nps
    let pr := extractPriceNLP entsD ql.toList
    { category := argmaxFirst gc
      brand := argmaxFirst bc
      color := argmaxFirst cc
      price_max := pr.1
      price_min := pr.2
      gender := resolveFirst gender_entities ql
      keywords := keywords_of d.tokens
      entities := entsD
      semantic := some ⟨nps, mods, bc, cc, gc⟩ }
  | none => parse_query_fallback ql

/-! ### Elasticsearch clause builder (`search_products`, lines 428–588) -/

/-- One `should` clause of the Elasticsearch request.  `fullMulti` is the
fuzzy multi-field clause over the whole query (line 431, title weighted
highest); `kwMulti` the per-keyword fuzzy clause (lines 441–449); the `term*`
constructors are boosted exact-match clauses; `phraseTitle` the noun-phrase
match (lines 490–500). -/
inductive EsClause where
  | fullMulti (query : String)
  | kwMulti (kw : String)
  | termBrand (value : String) (boost : ℚ)
  | termColor (value : String) (boost : ℚ)
  | termCategory (value : String) (boost : ℚ)
  | phraseTitle (phrase : String) (boost : ℚ)
  | termGender (value : String) (boost : ℚ)
  deriving DecidableEq

/-- One hard `filter` clause (inclusive price range, lines 552–556). -/
inductive EsFilter where
  | priceLte (v : Int)
  | priceGte (v : Int)
  deriving DecidableEq

/-- Per-keyword fuzzy clauses (lines 441–449): one per keyword longer than 2
characters, in keyword order. -/
def kwClauses (kws : List String) : List EsClause :=
  (kws.filter (fun k => k.length > 2)).map EsClause.kwMulti

/-- Boosted brand clauses from the confidence map (lines 454–464):
`boost = min(confidence * 2.0, 5.0)`. -/
def brandConfClauses (m : List (String × ℚ)) : List EsClause :=
  m.map (fun e => EsClause.termBrand e.1 (min (e.2 * 2) 5))

/-- Boosted color clauses (lines 466–476): `boost = min(confidence * 1.8, 4.0)`. -/
def colorConfClauses (m : List (String × ℚ)) : List EsClause :=
  m.map (fun e => EsClause.termColor e.1 (min (e.2 * 1.8) 4))

/-- Boosted category clauses (lines 478–488): `boost = min(confidence * 1.5, 3.0)`. -/
def categoryConfClauses (m : List (String × ℚ)) : List EsClause :=
  m.map (fun e => EsClause.termCategory e.1 (min (e.2 * 1.5) 3))

/-- Noun-phrase clauses (lines 490–500): phrases longer than 3 characters,
fixed boost `1.3`. -/
def phraseClauses (nps : List String) : List EsClause :=
  (nps.filter (fun p => p.length > 3)).map (fun p => EsClause.phraseTitle p 1.3)

/-- The semantic-analysis block (lines 451–500); the truthiness guards on the
confidence maps mirror `if semantic.get("brand_confidence"):` etc. -/
def semanticBlock (s : Semantic) : List EsClause :=
  (if s.brand_confidence.isEmpty then [] else brandConfClauses s.brand_confidence) ++
  (if s.color_confidence.isEmpty then [] else colorConfClauses s.color_confidence) ++
  (if s.category_confidence.isEmpty then [] else categoryConfClauses s.category_confidence) ++
  (if s.noun_phrases.isEmpty then [] else phraseClauses s.noun_phrases)

/-- The degraded-path block (lines 502–531): at most one exact clause per
resolved attribute, fixed boost `2.0`, in source order category, brand, color. -/
def elseBlock (f : Filters) : List EsClause :=
  (match optTruthy f.category with
   | some c => [EsClause.termCategory c 2]
   | none => []) ++
  (match optTruthy f.brand with
   | some b => [EsClause.termBrand b 2]
   | none => []) ++
  (match optTruthy f.color with
   | some c => [EsClause.termColor c 2]
   | none => [])

/-- Gender synonym expansion of the clause builder (lines 534–540). -/
def genderExpansion (g : String) : List String :=
  if g = "women" then ["women", "girls", "female"]
  else if g = "men" then ["men", "boys", "male"]
  else [g]

/-- Gender clauses (lines 533–550): one exact clause per expanded synonym,
fixed boost `1.5`. -/
def genderBlock (f : Filters) : List EsClause :=
  match optTruthy f.gender with
  | some g => (genderExpansion g).map (fun t => EsClause.termGender t 1.5)
  | none => []

/-- All `should` clauses of the Elasticsearch request, in emission order
(lines 428–550). -/
def es_should_clauses (query : String) (f : Filters) : List EsClause :=
  [EsClause.fullMulti query] ++
  kwClauses f.keywords ++
  (match f.semantic with
   | some s => semanticBlock s
   | none => elseBlock f) ++
  genderBlock f

/-- The hard price filters (lines 552–556): emitted only for truthy bounds. -/
def es_filter_clauses (f : Filters) : List EsFilter :=
  (if pyTruthyInt f.price_max then [EsFilter.priceLte (f.price_max.getD 0)] else []) ++
  (if pyTruthyInt f.price_min then [EsFilter.priceGte (f.price_min.getD 0)] else [])

/-! ### MongoDB fallback query (`search_products`, lines 615–698) -/

/-- One conjunct of the MongoDB `$and` list.  `attrRegex` is a
case-insensitive substring predicate on one field; `textSingle`/`textAnd`
model the keyword disjunction block (a single `$or` when one term, a nested
`$and` of `$or`s otherwise).  The final unwrapping of a singleton/empty
`$and` (lines 676–679) only reshapes the JSON and is not modelled. -/
inductive MongoPred where
  | attrRegex (field : String) (value : String)
  | priceLte (v : Int)
  | priceGte (v : Int)
  | textSingle (term : String)
  | textAnd (terms : List String)
  deriving DecidableEq

/-- Packaging of the nonempty `text_conditions` list (lines 670–674): a lone
condition is appended bare, several are wrapped in a nested `$and`. -/
def textConds : List String → List MongoPred
  | [] => []
  | [t] => [MongoPred.textSingle t]
  | ts => [MongoPred.textAnd ts]

/-- The keyword text block (lines 652–674). -/
def mongoTextBlock (f : Filters) (query : String) : List MongoPred :=
  if !f.keywords.isEmpty ||
     !((optTruthy f.category).isSome || (optTruthy f.brand).isSome ||
       (optTruthy f.color).isSome || (optTruthy f.gender).isSome) then
    let search_terms := if f.keywords.isEmpty then [pyLower query] else f.keywords
    textConds (search_terms.filter (fun t => t.length > 2))
  else []

/-- The full `$and` list of the MongoDB query (lines 620–674), in source
order: attribute regexes, price bounds (truthy only), then the text block. -/
def mongo_and_clauses (f : Filters) (query : String) : List MongoPred :=
  (match optTruthy f.category with
   | some c => [MongoPred.attrRegex "category" c]
   | none => []) ++
  (match optTruthy f.brand with
   | some b => [MongoPred.attrRegex "brand" b]
   | none => []) ++
  (match optTruthy f.color with
   | some c => [MongoPred.attrRegex "color" c]
   | none => []) ++
  (match optTruthy f.gender with
   | some g => [MongoPred.attrRegex "gender" g]
   | none => []) ++
  (if pyTruthyInt f.price_max then [MongoPred.priceLte (f.price_max.getD 0)] else []) ++
  (if pyTruthyInt f.price_min then [MongoPred.priceGte (f.price_min.getD 0)] else []) ++
  mongoTextBlock f query

/-! ### Candidates, MongoDB composite ranking, and the rescorer -/

/-- A product candidate.  `score` is the backend relevance score `_score`
(present on Elasticsearch hits; `product.get("_score", 1.0)` defaults it
to `1.0`). -/
structure Product where
  title : String
  brand : String
  color : String
  category : String
  gender : String
  price : ℚ
  rating : ℚ
  stock : Int
  score : Option ℚ
  deriving DecidableEq

/-- The MongoDB composite score (lines 686–694):
`rating×2 + (5 if stock>0 else 0) + 100/(price+1)`. -/
def mongo_score (p : Product) : ℚ :=
  p.rating * 2 + (if 0 < p.stock then 5 else 0) + 100 / (p.price + 1)

/-- Sort key of the MongoDB `$sort` stage (line 696): score descending, then
price ascending, then rating descending, as a lexicographic triple. -/
def mongoKey (x : Product × ℚ) : ℚ ×ₗ (ℚ ×ₗ ℚ) :=
  toLex (-x.2, toLex (x.1.price, -x.1.rating))

/-- The MongoDB sort order on scored candidates. -/
def mongoRel (a b : Product × ℚ) : Prop := mongoKey a ≤ mongoKey b

instance : DecidableRel mongoRel := fun a b =>
  inferInstanceAs (Decidable (mongoKey a ≤ mongoKey b))

instance : IsTotal (Product × ℚ) mongoRel := ⟨fun a b => le_total (mongoKey a) (mongoKey b)⟩

instance : IsTrans (Product × ℚ) mongoRel := ⟨fun _ _ _ h h' => le_trans h h'⟩

/-- The MongoDB aggregation (lines 683–698): score every candidate, sort by
the composite order, cap at 50 results. -/
def mongo_rank (l : List Product) : List (Product × ℚ) :=
  (List.insertionSort mongoRel (l.map (fun p => (p, mongo_score p)))).take 50

/-- `dict.get(k, d)` on a confidence map. -/
def lookupQ (m : List (String × ℚ)) (k : String) (d : ℚ) : ℚ :=
  ((m.find? (fun e => e.1 = k)).map (fun e => e.2)).getD d

/-- The set of shoe categories of the general-shoes bonus (line 760). -/
def shoeCategories : List String := ["sneakers", "flats", "boots", "sandals", "heels"]

/-- `semantic.get("brand_confidence")` with the missing-dict default of
line 723 (`filters.get("semantic_analysis", {})`). -/
def bcOf (f : Filters) : List (String × ℚ) :=
  match f.semantic with | some s => s.brand_confidence | none => []

/-- `semantic.get("color_confidence")` with the missing-dict default. -/
def ccOf (f : Filters) : List (String × ℚ) :=
  match f.semantic with | some s => s.color_confidence | none => []

/-- `semantic.get("category_confidence")` with the missing-dict default. -/
def gcOf (f : Filters) : List (String × ℚ) :=
  match f.semantic with | some s => s.category_confidence | none => []

/-- `semantic.get("noun_phrases")` with the missing-dict default. -/
def npsOf (f : Filters) : List String :=
  match f.semantic with | some s => s.noun_phrases | none => []

/-- The per-candidate score of `apply_nlp_scoring` (lines 725–793), written
exactly in source order: each step reads the running score left by the
previous one. -/
def nlp_score (p : Product) (f : Filters) (q : String) : ℚ :=
  let bc := bcOf f
  let cc := ccOf f
  let gc := gcOf f
  let nps := npsOf f
  let s0 := p.score.getD 1
  let s1 :=
    match optTruthy f.brand with
    | some b =>
      if !bc.isEmpty then
        if pyLower p.brand = pyLower b then s0 + lookupQ bc (pyLower b) 1 * 3
        else s0 * 0.3
      else s0
    | none => s0
  let s2 :=
    match optTruthy f.color with
    | some c =>
      if !cc.isEmpty then
        if pyLower p.color = pyLower c then s1 + lookupQ cc (pyLower c) 1 * 2
        else s1 * 0.4
      else s1
    | none => s1
  let s3 :=
    match optTruthy f.category with
    | some c =>
      if !gc.isEmpty then
        if pyLower p.category = pyLower c then s2 + lookupQ gc (pyLower c) 1 * 1.5
        else if strContains (pyLower q) "shoes" && shoeCategories.contains (pyLower p.category)
        then s2 + 0.5
        else s2 * 0.7
      else s2
    | none => s2
  let s4 :=
    match optTruthy f.gender with
    | some g =>
      let pg := pyLower p.gender
      let tg := pyLower g
      let gender_match :=
        (tg = "women" && ["women", "girls", "female"].contains pg) ||
        (tg = "men" && ["men", "boys", "male"].contains pg) ||
        (tg = pg)
      if gender_match then s3 + 1 else s3 * 0.6
    | none => s3
  if !nps.isEmpty then
    nps.foldl (fun s ph => if strContains (pyLower p.title) ph then s + 0.8 else s) s4
  else s4

/-- Stable descending order on scored candidates
(`products.sort(key=..., reverse=True)`, line 796). -/
def descRel (a b : Product × ℚ) : Prop := b.2 ≤ a.2

instance : DecidableRel descRel := fun a b => inferInstanceAs (Decidable (b.2 ≤ a.2))

instance : IsTotal (Product × ℚ) descRel := ⟨fun a b => le_total b.2 a.2⟩

instance : IsTrans (Product × ℚ) descRel := ⟨fun _ _ _ h h' => le_trans h' h⟩

/-- `apply_nlp_scoring` (lines 718–802): annotate every candidate with its
adjusted score, then sort descending, stably (Python `list.sort` is stable;
any stable sort by the same key yields the same list, so insertion sort is an
exact model).  The `if not products: return products` early exit is the
`isEmpty` branch. -/
def apply_nlp_scoring (ps : List Product) (f : Filters) (q : String) :
    List (Product × ℚ) :=
  if ps.isEmpty then []
  else List.insertionSort descRel (ps.map (fun p => (p, nlp_score p f q)))

/-! ### Claim-side rescoring steps (mirroring the spec's §4.5 wording,
used only to state the refinement claim about `nlp_score`) -/

/-- Spec step 1: brand bonus/penalty, guarded by a set brand and an existing
(nonempty) brand confidence map; the confidence of a target absent from the
map defaults to `1.0` as in `dict.get(target, 1.0)`. -/
def specStepBrand (f : Filters) (p : Product) (s : ℚ) : ℚ :=
  match f.semantic, optTruthy f.brand with
  | some sem, some b =>
    if sem.brand_confidence = [] then s
    else if pyLower p.brand = pyLower b then
      s + lookupQ sem.brand_confidence (pyLower b) 1 * 3
    else s * 0.3
  | _, _ => s

/-- Spec step 2: color bonus/penalty with the same guard shape. -/
def specStepColor (f : Filters) (p : Product) (s : ℚ) : ℚ :=
  match f.semantic, optTruthy f.color with
  | some sem, some c =>
    if sem.color_confidence = [] then s
    else if pyLower p.color = pyLower c then
      s + lookupQ sem.color_confidence (pyLower c) 1 * 2
    else s * 0.4
  | _, _ => s

/-- Spec step 3: category bonus, general-shoes bonus, or penalty. -/
def specStepCategory (f : Filters) (q : String) (p : Product) (s : ℚ) : ℚ :=
  match f.semantic, optTruthy f.category with
  | some sem, some c =>
    if sem.category_confidence = [] then s
    else if pyLower p.category = pyLower c then
      s + lookupQ sem.category_confidence (pyLower c) 1 * 1.5
    else if strContains (pyLower q) "shoes" ∧ pyLower p.category ∈ shoeCategories then
      s + 0.5
    else s * 0.7
  | _, _ => s

/-- Spec step 4: gender, matched by the same synonym equivalence as clause
building (`genderExpansion`). -/
def specStepGender (f : Filters) (p : Product) (s : ℚ) : ℚ :=
  match optTruthy f.gender with
  | some g =>
    if pyLower p.gender ∈ genderExpansion (pyLower g) then s + 1 else s * 0.6
  | none => s

/-- Spec step 5: `+0.8` for every noun phrase contained in the title. -/
def specStepNoun (f : Filters) (p : Product) (s : ℚ) : ℚ :=
  match f.semantic with
  | some sem =>
    s + 0.8 * (sem.noun_phrases.countP (fun ph => strContains (pyLower p.title) ph) : ℚ)
  | none => s

/-- The spec's §4.5 pipeline: the five steps applied in fixed order to the
backend relevance score. -/
def rescore_spec (p : Product) (f : Filters) (q : String) : ℚ :=
  specStepNoun f p
    (specStepGender f p
      (specStepCategory f q p
        (specStepColor f p
          (specStepBrand f p (p.score.getD 1)))))

/-! ### Clause discriminators (used to state builder claims) -/

/-- Whether a clause is a boosted exact brand clause. -/
def isBrandClause : EsClause → Bool
  | .termBrand _ _ => true
  | _ => false

/-- Whether a clause is a boosted exact color clause. -/
def isColorClause : EsClause → Bool
  | .termColor _ _ => true
  | _ => false

/-- Whether a clause is a boosted exact category clause. -/
def isCategoryClause : EsClause → Bool
  | .termCategory _ _ => true
  | _ => false

/-- Whether a clause is a noun-phrase match clause. -/
def isPhraseClause : EsClause → Bool
  | .phraseTitle _ _ => true
  | _ => false

/-- Whether a clause is a per-keyword fuzzy clause. -/
def isKwClause : EsClause → Bool
  | .kwMulti _ => true
  | _ => false

/-! ### Concrete annotator outputs for the example queries

These model what the spaCy collaborator returns for the two testable-property
queries of §8: per-token text / coarse POS / lemma / stop flag / dependency
children, and the CARDINAL entity for the numeric token. -/

/-- spaCy-style annotation of `"red nike sneakers under 80"`. -/
def docC3 : Doc :=
  { tokens :=
      [⟨"red", "ADJ", "red", false, []⟩,
       ⟨"nike", "PROPN", "nike", false, []⟩,
       ⟨"sneakers", "NOUN", "sneaker", false, [⟨"red", "ADJ"⟩, ⟨"nike", "PROPN"⟩]⟩,
       ⟨"under", "ADP", "under", true, []⟩,
       ⟨"80", "NUM", "80", false, []⟩],
    ents := [⟨"CARDINAL", "80"⟩] }

/-- spaCy-style annotation of `"running shoes over 50"`. -/
def docC4 : Doc :=
  { tokens :=
      [⟨"running", "NOUN", "running", false, []⟩,
       ⟨"shoes", "NOUN", "shoe", false, [⟨"running", "NOUN"⟩]⟩,
       ⟨"over", "ADP", "over", true, []⟩,
       ⟨"50", "NUM", "50", false, []⟩],
    ents := [⟨"CARDINAL", "50"⟩] }

/-! ## Theorems -/

/-- The plain-regex price stage preserves "at least one bound is falsy":
when it runs, the over-list is consulted only while `price_max` is falsy. -/
theorem applyRegexFallback_falsy (under over : List Pattern) (cs : List Char)
    (pm pn : Option Int)
    (h : pyTruthyInt pm = false ∨ pyTruthyInt pn = false) :
    pyTruthyInt (applyRegexFallback under over cs pm pn).1 = false ∨
    pyTruthyInt (applyRegexFallback under over cs pm pn).2 = false := by
  unfold applyRegexFallback
  by_cases h1 : (pyTruthyInt pm || pyTruthyInt pn) = true
  · simp only [h1, if_true]
    exact h
  · have hpn : pyTruthyInt pn = false := by
      simp only [Bool.or_eq_true, not_or, Bool.not_eq_true] at h1
      exact h1.2
    simp only [h1, if_false, Bool.false_eq_true]
    by_cases h2 : pyTruthyInt
        (match firstCapt under cs with
          | some v => some (v : Int)
          | none => pm) = true
    · simp only [h2, if_true]
      right; exact hpn
    · simp only [h2, if_false, Bool.false_eq_true]
      rcases hov : firstCapt over cs with _ | v
      · simp only []
        right; exact hpn
      · simp only []
        left
        exact Bool.not_eq_true _ |>.mp h2

/-- The entity price stage never sets both bounds: each branch leaves at
least one of them `None`. -/
theorem extractPriceEntities_falsy (ents : List (String × String)) (cs : List Char) :
    pyTruthyInt (extractPriceEntities ents cs).1 = false ∨
    pyTruthyInt (extractPriceEntities ents cs).2 = false := by
  unfold extractPriceEntities
  rcases optTruthy (dictGet ents "MONEY") with _ | m
  · rcases optTruthy (dictGet ents "CARDINAL") with _ | c
    · simp [pyTruthyInt]
    · simp only []
      rcases pyInt c with _ | v
      · simp [pyTruthyInt]
      · simp only []
        by_cases hu : anyHit (underCard c) cs = true
        · simp [hu, pyTruthyInt]
        · simp only [Bool.not_eq_true] at hu
          by_cases ho : anyHit (overCard c) cs = true <;>
            simp [hu, ho, pyTruthyInt]
  · simp only []
    rcases firstDigitRun m.toList with _ | ds <;> simp [pyTruthyInt]

/-- C1 — counterexample: on the query `"under 0 over 50"` (degraded path,
and identically in the annotated path's shared regex stage) the parser sets
BOTH `price_max = 0` (from the under-list) and `price_min = 50` (from the
over-list, reached because `0` is falsy), so the two bounds are both set from
one query. -/
theorem C1_counterexample :
    (parse_query_with_nlp none "under 0 over 50").price_max = some 0 ∧
    (parse_query_with_nlp none "under 0 over 50").price_min = some 50 := by
  decide

/-- C1 — amended: on both interpretation paths, at most one of
`price_min`/`price_max` is ever set to a nonzero (Python-truthy) value; a
zero bound — itself treated as unset downstream — is the only way both fields
can be simultaneously non-`None`. -/
theorem C1_amended_at_most_one_truthy_bound (doc : Option Doc) (query : String) :
    pyTruthyInt (parse_query_with_nlp doc query).price_max = false ∨
    pyTruthyInt (parse_query_with_nlp doc query).price_min = false := by
  rcases doc with _ | d
  · simp only [parse_query_with_nlp, parse_query_fallback, extractPriceFB]
    exact applyRegexFallback_falsy _ _ _ _ _ (Or.inl rfl)
  · simp only [parse_query_with_nlp, extractPriceNLP]
    exact applyRegexFallback_falsy _ _ _ _ _ (extractPriceEntities_falsy _ _)

set_option maxRecDepth 100000 in
/-- C3: interpreting `"red nike sneakers under 80"` — on the annotated path
(with the spaCy collaborator's annotation `docC3`) and on the degraded path —
yields brand `nike`, color `red`, category `sneakers`, `price_max = 80`, and
`price_min` unset. -/
theorem C3_red_nike_sneakers_under_80 :
    ((parse_query_with_nlp (some docC3) "red nike sneakers under 80").brand = some "nike" ∧
     (parse_query_with_nlp (some docC3) "red nike sneakers under 80").color = some "red" ∧
     (parse_query_with_nlp (some docC3) "red nike sneakers under 80").category = some "sneakers" ∧
     (parse_query_with_nlp (some docC3) "red nike sneakers under 80").price_max = some 80 ∧
     (parse_query_with_nlp (some docC3) "red nike sneakers under 80").price_min = none) ∧
    ((parse_query_fallback "red nike sneakers under 80").brand = some "nike" ∧
     (parse_query_fallback "red nike sneakers under 80").color = some "red" ∧
     (parse_query_fallback "red nike sneakers under 80").category = some "sneakers" ∧
     (parse_query_fallback "red nike sneakers under 80").price_max = some 80 ∧
     (parse_query_fallback "red nike sneakers under 80").price_min = none) := by
  decide

set_option maxRecDepth 100000 in
/-- C4: interpreting `"running shoes over 50"` — on the annotated path (with
annotation `docC4`) and on the degraded path — yields category `sneakers`,
`price_min = 50`, `price_max` unset; every under-pattern fails on this query
(entity under-patterns, annotated regex under-list, degraded under-list), and
the very first over-pattern (`over\s+…`) is the one that matches. -/
theorem C4_running_shoes_over_50 :
    ((parse_query_with_nlp (some docC4) "running shoes over 50").category = some "sneakers" ∧
     (parse_query_with_nlp (some docC4) "running shoes over 50").price_min = some 50 ∧
     (parse_query_with_nlp (some docC4) "running shoes over 50").price_max = none) ∧
    ((parse_query_fallback "running shoes over 50").category = some "sneakers" ∧
     (parse_query_fallback "running shoes over 50").price_min = some 50 ∧
     (parse_query_fallback "running shoes over 50").price_max = none) ∧
    (anyHit (underCard "50") "running shoes over 50".toList = false ∧
     (searchCapt [pw "over", RTok.ws1, pw "50"] "running shoes over 50".toList).isSome = true) ∧
    (firstCapt underNLP "running shoes over 50".toList = none ∧
     firstCapt underFB "running shoes over 50".toList = none ∧
     searchCapt [pw "over", RTok.ws1, RTok.digits] "running shoes over 50".toList =
       some ['5', '0'] ∧
     firstCapt overFB "running shoes over 50".toList = some 50) := by
  decide

/-- C5 — counterexample: the per-keyword fuzzy clauses are NOT restricted to
the annotated path.  For the degraded interpretation of `"nike sneakers"`
(whose keyword list is `["nike", "sneakers"]`), the clause builder emits a
per-keyword fuzzy multi-match clause. -/
theorem C5_counterexample :
    (parse_query_fallback "nike sneakers").semantic = none ∧
    EsClause.kwMulti "nike" ∈
      es_should_clauses "nike sneakers" (parse_query_fallback "nike sneakers") := by
  decide

/-- C5 — amended: the clause builder emits one per-keyword fuzzy disjunctive
clause for EVERY keyword longer than 2 characters, on both paths — Filter
Sets produced by the degraded algorithm included — since it never consults
the path marker. -/
theorem C5_amended_kw_clauses_on_every_path (q : String) (f : Filters) (kw : String)
    (h1 : kw ∈ f.keywords) (h2 : kw.length > 2) :
    EsClause.kwMulti kw ∈ es_should_clauses q f := by
  unfold es_should_clauses kwClauses
  refine List.mem_append.mpr (Or.inl ?_)
  refine List.mem_append.mpr (Or.inl ?_)
  refine List.mem_append.mpr (Or.inr ?_)
  refine List.mem_map.mpr ⟨kw, List.mem_filter.mpr ⟨h1, ?_⟩, rfl⟩
  exact decide_eq_true h2

/-- Witness for the amended C5 at a concrete degraded Filter Set. -/
theorem C5_amended_witness :
    EsClause.kwMulti "sneakers" ∈
      es_should_clauses "xyz" (parse_query_fallback "nike sneakers") :=
  C5_amended_kw_clauses_on_every_path "xyz" (parse_query_fallback "nike sneakers")
    "sneakers" (by decide) (by decide)

/-- Membership in a conditionally-empty list implies membership in the list. -/
theorem mem_of_mem_ite_nil {α : Type} {c : Prop} [Decidable c] {x : α} {l : List α}
    (h : x ∈ if c then ([] : List α) else l) : x ∈ l := by
  split at h
  · cases h
  · exact h

/-- A brand term clause in the semantic block carries `min(confidence*2, 5)`
for a confidence actually present in the brand confidence map. -/
theorem termBrand_mem_semanticBlock {s : Semantic} {v : String} {b : ℚ}
    (h : EsClause.termBrand v b ∈ semanticBlock s) :
    ∃ conf, (v, conf) ∈ s.brand_confidence ∧ b = min (conf * 2) 5 := by
  unfold semanticBlock at h
  rcases List.mem_append.mp h with h' | h'
  · rcases List.mem_append.mp h' with h'' | h''
    · rcases List.mem_append.mp h'' with h3 | h3
      · have h4 := mem_of_mem_ite_nil h3
        unfold brandConfClauses at h4
        rcases List.mem_map.mp h4 with ⟨e, he, heq⟩
        rcases e with ⟨k, conf⟩
        obtain ⟨rfl, rfl⟩ := by
          simpa using heq.symm
        exact ⟨conf, he, rfl⟩
      · have h4 := mem_of_mem_ite_nil h3
        unfold colorConfClauses at h4
        rcases List.mem_map.mp h4 with ⟨e, _, heq⟩
        cases heq
    · have h4 := mem_of_mem_ite_nil h''
      unfold categoryConfClauses at h4
      rcases List.mem_map.mp h4 with ⟨e, _, heq⟩
      cases heq
  · have h4 := mem_of_mem_ite_nil h'
    unfold phraseClauses at h4
    rcases List.mem_map.mp h4 with ⟨e, _, heq⟩
    cases heq

/-- A color term clause in the semantic block carries `min(confidence*1.8, 4)`. -/
theorem termColor_mem_semanticBlock {s : Semantic} {v : String} {b : ℚ}
    (h : EsClause.termColor v b ∈ semanticBlock s) :
    ∃ conf, (v, conf) ∈ s.color_confidence ∧ b = min (conf * 1.8) 4 := by
  unfold semanticBlock at h
  rcases List.mem_append.mp h with h' | h'
  · rcases List.mem_append.mp h' with h'' | h''
    · rcases List.mem_append.mp h'' with h3 | h3
      · have h4 := mem_of_mem_ite_nil h3
        unfold brandConfClauses at h4
        rcases List.mem_map.mp h4 with ⟨e, _, heq⟩
        cases heq
      · have h4 := mem_of_mem_ite_nil h3
        unfold colorConfClauses at h4
        rcases List.mem_map.mp h4 with ⟨e, he, heq⟩
        rcases e with ⟨k, conf⟩
        obtain ⟨rfl, rfl⟩ := by
          simpa using heq.symm
        exact ⟨conf, he, rfl⟩
    · have h4 := mem_of_mem_ite_nil h''
      unfold categoryConfClauses at h4
      rcases List.mem_map.mp h4 with ⟨e, _, heq⟩
      cases heq
  · have h4 := mem_of_mem_ite_nil h'
    unfold phraseClauses at h4
    rcases List.mem_map.mp h4 with ⟨e, _, heq⟩
    cases heq

/-- A category term clause in the semantic block carries `min(confidence*1.5, 3)`. -/
theorem termCategory_mem_semanticBlock {s : Semantic} {v : String} {b : ℚ}
    (h : EsClause.termCategory v b ∈ semanticBlock s) :
    ∃ conf, (v, conf) ∈ s.category_confidence ∧ b = min (conf * 1.5) 3 := by
  unfold semanticBlock at h
  rcases List.mem_append.mp h with h' | h'
  · rcases List.mem_append.mp h' with h'' | h''
    · rcases List.mem_append.mp h'' with h3 | h3
      · have h4 := mem_of_mem_ite_nil h3
        unfold brandConfClauses at h4
        rcases List.mem_map.mp h4 with ⟨e, _, heq⟩
        cases heq
      · have h4 := mem_of_mem_ite_nil h3
        unfold colorConfClauses at h4
        rcases List.mem_map.mp h4 with ⟨e, _, heq⟩
        cases heq
    · have h4 := mem_of_mem_ite_nil h''
      unfold categoryConfClauses at h4
      rcases List.mem_map.mp h4 with ⟨e, he, heq⟩
      rcases e with ⟨k, conf⟩
      obtain ⟨rfl, rfl⟩ := by
        simpa using heq.symm
      exact ⟨conf, he, rfl⟩
  · have h4 := mem_of_mem_ite_nil h'
    unfold phraseClauses at h4
    rcases List.mem_map.mp h4 with ⟨e, _, heq⟩
    cases heq

/-- No exact-match attribute clauses come from the full-query clause, the
keyword clauses, or the gender clauses. -/
theorem attr_clause_mem_middle {q : String} {f : Filters} {c : EsClause}
    (hc : c ∈ es_should_clauses q f)
    (hattr : isBrandClause c = true ∨ isColorClause c = true ∨ isCategoryClause c = true) :
    c ∈ (match f.semantic with
         | some s => semanticBlock s
         | none => elseBlock f) := by
  unfold es_should_clauses at hc
  rcases List.mem_append.mp hc with h' | h'
  · rcases List.mem_append.mp h' with h'' | h''
    · rcases List.mem_append.mp h'' with h3 | h3
      · rcases List.mem_singleton.mp h3 with rfl
        rcases hattr with h | h | h <;> cases h
      · unfold kwClauses at h3
        rcases List.mem_map.mp h3 with ⟨k, _, rfl⟩
        rcases hattr with h | h | h <;> cases h
    · exact h''
  · unfold genderBlock at h'
    rcases hg : optTruthy f.gender with _ | g
    · rw [hg] at h'
      cases h'
    · rw [hg] at h'
      rcases List.mem_map.mp h' with ⟨t, _, rfl⟩
      rcases hattr with h | h | h <;> cases h

/-- C2: with semantic analysis present, every boosted exact-match clause the
clause builder emits is clamped — brand `min(conf×2.0, 5.0) ≤ 5.0`, color
`min(conf×1.8, 4.0) ≤ 4.0`, category `min(conf×1.5, 3.0) ≤ 3.0` — for a
confidence value taken from the corresponding confidence map, however large
that accumulated confidence is. -/
theorem C2_boost_clamps (q : String) (f : Filters) (s : Semantic)
    (hs : f.semantic = some s) :
    (∀ v b, EsClause.termBrand v b ∈ es_should_clauses q f →
       b ≤ 5 ∧ ∃ conf, (v, conf) ∈ s.brand_confidence ∧ b = min (conf * 2) 5) ∧
    (∀ v b, EsClause.termColor v b ∈ es_should_clauses q f →
       b ≤ 4 ∧ ∃ conf, (v, conf) ∈ s.color_confidence ∧ b = min (conf * 1.8) 4) ∧
    (∀ v b, EsClause.termCategory v b ∈ es_should_clauses q f →
       b ≤ 3 ∧ ∃ conf, (v, conf) ∈ s.category_confidence ∧ b = min (conf * 1.5) 3) := by
  refine ⟨fun v b hb => ?_, fun v b hb => ?_, fun v b hb => ?_⟩
  · have hmid := attr_clause_mem_middle hb (Or.inl rfl)
    rw [hs] at hmid
    rcases termBrand_mem_semanticBlock hmid with ⟨conf, hconf, rfl⟩
    exact ⟨min_le_right _ _, conf, hconf, rfl⟩
  · have hmid := attr_clause_mem_middle hb (Or.inr (Or.inl rfl))
    rw [hs] at hmid
    rcases termColor_mem_semanticBlock hmid with ⟨conf, hconf, rfl⟩
    exact ⟨min_le_right _ _, conf, hconf, rfl⟩
  · have hmid := attr_clause_mem_middle hb (Or.inr (Or.inr rfl))
    rw [hs] at hmid
    rcases termCategory_mem_semanticBlock hmid with ⟨conf, hconf, rfl⟩
    exact ⟨min_le_right _ _, conf, hconf, rfl⟩

/-- Witness for C2: a Filter Set whose brand confidence is `3` (so that the
unclamped boost would be `6`) gets the clamped boost `5`. -/
theorem C2_boost_clamps_witness :
    (5 : ℚ) ≤ 5 ∧
    ∃ conf, ("nike", conf) ∈
        (Semantic.mk [] [] [("nike", 3)] [] []).brand_confidence ∧
      (5 : ℚ) = min (conf * 2) 5 :=
  (C2_boost_clamps "big nike fan"
      ⟨none, none, none, none, none, none, [], [],
        some (Semantic.mk [] [] [("nike", 3)] [] [])⟩
      (Semantic.mk [] [] [("nike", 3)] [] []) rfl).1
    "nike" 5 (by
      simp [es_should_clauses, semanticBlock, brandConfClauses, kwClauses, genderBlock,
        optTruthy]
      norm_num)

/-- The keyword clauses never contain an exact-match attribute clause. -/
theorem countP_kwClauses_attr (p : EsClause → Bool)
    (h : ∀ k, p (EsClause.kwMulti k) = false) (kws : List String) :
    (kwClauses kws).countP p = 0 := by
  refine List.countP_eq_zero.mpr ?_
  intro c hc
  unfold kwClauses at hc
  rcases List.mem_map.mp hc with ⟨k, _, rfl⟩
  simp [h k]

/-- The gender clauses never contain an exact-match attribute clause. -/
theorem countP_genderBlock_attr (p : EsClause → Bool)
    (h : ∀ g, p (EsClause.termGender g 1.5) = false) (f : Filters) :
    (genderBlock f).countP p = 0 := by
  refine List.countP_eq_zero.mpr ?_
  intro c hc
  unfold genderBlock at hc
  rcases hg : optTruthy f.gender with _ | g
  · rw [hg] at hc
    cases hc
  · rw [hg] at hc
    rcases List.mem_map.mp hc with ⟨t, _, rfl⟩
    simp [h t]

/-- C6: the degraded parser never attaches semantic analysis (no confidence
maps, no noun phrases); the annotated parser always attaches it (so
confidence maps exist iff the annotated algorithm ran); and on any Filter Set
without semantic analysis the clause builder takes the degraded branch: no
phrase clauses, at most one exact-match clause per attribute, each with fixed
boost `2.0` and carrying exactly the resolved attribute value. -/
theorem C6_degraded_semantics_and_single_exact_branch :
    (∀ ql : String, (parse_query_fallback ql).semantic = none) ∧
    (∀ (d : Doc) (q : String), (parse_query_with_nlp (some d) q).semantic.isSome = true) ∧
    (∀ (q : String) (f : Filters), f.semantic = none →
      ((es_should_clauses q f).countP isBrandClause ≤ 1 ∧
       (es_should_clauses q f).countP isColorClause ≤ 1 ∧
       (es_should_clauses q f).countP isCategoryClause ≤ 1 ∧
       (es_should_clauses q f).countP isPhraseClause = 0) ∧
      (∀ v b, EsClause.termBrand v b ∈ es_should_clauses q f →
        b = 2 ∧ optTruthy f.brand = some v) ∧
      (∀ v b, EsClause.termColor v b ∈ es_should_clauses q f →
        b = 2 ∧ optTruthy f.color = some v) ∧
      (∀ v b, EsClause.termCategory v b ∈ es_should_clauses q f →
        b = 2 ∧ optTruthy f.category = some v)) := by
  refine ⟨fun ql => rfl, fun d q => rfl, fun q f hsem => ⟨⟨?_, ?_, ?_, ?_⟩, ?_, ?_, ?_⟩⟩
  · rw [es_should_clauses, hsem]
    rw [List.countP_append, List.countP_append, List.countP_append]
    rw [countP_kwClauses_attr _ (fun k => rfl) _,
        countP_genderBlock_attr _ (fun g => rfl) _]
    unfold elseBlock
    rcases optTruthy f.category with _ | c <;>
      rcases optTruthy f.brand with _ | b <;>
        rcases optTruthy f.color with _ | l <;>
          simp [isBrandClause, List.countP_cons]
  · rw [es_should_clauses, hsem]
    rw [List.countP_append, List.countP_append, List.countP_append]
    rw [countP_kwClauses_attr _ (fun k => rfl) _,
        countP_genderBlock_attr _ (fun g => rfl) _]
    unfold elseBlock
    rcases optTruthy f.category with _ | c <;>
      rcases optTruthy f.brand with _ | b <;>
        rcases optTruthy f.color with _ | l <;>
          simp [isColorClause, List.countP_cons]
  · rw [es_should_clauses, hsem]
    rw [List.countP_append, List.countP_append, List.countP_append]
    rw [countP_kwClauses_attr _ (fun k => rfl) _,
        countP_genderBlock_attr _ (fun g => rfl) _]
    unfold elseBlock
    rcases optTruthy f.category with _ | c <;>
      rcases optTruthy f.brand with _ | b <;>
        rcases optTruthy f.color with _ | l <;>
          simp [isCategoryClause, List.countP_cons]
  · rw [es_should_clauses, hsem]
    rw [List.countP_append, List.countP_append, List.countP_append]
    rw [countP_kwClauses_attr _ (fun k => rfl) _,
        countP_genderBlock_attr _ (fun g => rfl) _]
    unfold elseBlock
    rcases optTruthy f.category with _ | c <;>
      rcases optTruthy f.brand with _ | b <;>
        rcases optTruthy f.color with _ | l <;>
          simp [isPhraseClause, List.countP_cons]
  · intro v b hb
    have hmid := attr_clause_mem_middle hb (Or.inl rfl)
    rw [hsem] at hmid
    unfold elseBlock at hmid
    rcases hcat : optTruthy f.category with _ | c <;> rw [hcat] at hmid <;>
      rcases hbr : optTruthy f.brand with _ | br <;> rw [hbr] at hmid <;>
        rcases hcol : optTruthy f.color with _ | l <;> rw [hcol] at hmid <;>
          simp_all
  · intro v b hb
    have hmid := attr_clause_mem_middle hb (Or.inr (Or.inl rfl))
    rw [hsem] at hmid
    unfold elseBlock at hmid
    rcases hcat : optTruthy f.category with _ | c <;> rw [hcat] at hmid <;>
      rcases hbr : optTruthy f.brand with _ | br <;> rw [hbr] at hmid <;>
        rcases hcol : optTruthy f.color with _ | l <;> rw [hcol] at hmid <;>
          simp_all
  · intro v b hb
    have hmid := attr_clause_mem_middle hb (Or.inr (Or.inr rfl))
    rw [hsem] at hmid
    unfold elseBlock at hmid
    rcases hcat : optTruthy f.category with _ | c <;> rw [hcat] at hmid <;>
      rcases hbr : optTruthy f.brand with _ | br <;> rw [hbr] at hmid <;>
        rcases hcol : optTruthy f.color with _ | l <;> rw [hcol] at hmid <;>
          simp_all

/-- The noun-phrase loop adds `0.8` per phrase contained in the title. -/
theorem foldl_noun_bonus (title : String) (l : List String) (s : ℚ) :
    l.foldl (fun s ph => if strContains title ph then s + 0.8 else s) s =
      s + 0.8 * (l.countP (fun ph => strContains title ph) : ℚ) := by
  induction l generalizing s with
  | nil => simp
  | cons a t ih =>
    simp only [List.foldl_cons, List.countP_cons]
    by_cases h : strContains title a = true
    · rw [if_pos h, ih]
      simp only [h, if_pos]
      push_cast
      ring
    · rw [if_neg h, ih]
      simp [h]

/-- The brand step of `nlp_score` is spec step 1. -/
theorem brand_step_eq (f : Filters) (p : Product) (s : ℚ) :
    (match optTruthy f.brand with
     | some b =>
       if !(bcOf f).isEmpty then
         if pyLower p.brand = pyLower b then s + lookupQ (bcOf f) (pyLower b) 1 * 3
         else s * 0.3
       else s
     | none => s) = specStepBrand f p s := by
  unfold specStepBrand bcOf
  rcases f.semantic with _ | sem
  · rcases optTruthy f.brand with _ | b <;> simp
  · rcases optTruthy f.brand with _ | b
    · simp
    · simp only []
      by_cases h : sem.brand_confidence = [] <;> simp [h]

/-- The color step of `nlp_score` is spec step 2. -/
theorem color_step_eq (f : Filters) (p : Product) (s : ℚ) :
    (match optTruthy f.color with
     | some c =>
       if !(ccOf f).isEmpty then
         if pyLower p.color = pyLower c then s + lookupQ (ccOf f) (pyLower c) 1 * 2
         else s * 0.4
       else s
     | none => s) = specStepColor f p s := by
  unfold specStepColor ccOf
  rcases f.semantic with _ | sem
  · rcases optTruthy f.color with _ | c <;> simp
  · rcases optTruthy f.color with _ | c
    · simp
    · simp only []
      by_cases h : sem.color_confidence = [] <;> simp [h]

/-- The category step of `nlp_score` is spec step 3. -/
theorem category_step_eq (f : Filters) (q : String) (p : Product) (s : ℚ) :
    (match optTruthy f.category with
     | some c =>
       if !(gcOf f).isEmpty then
         if pyLower p.category = pyLower c then s + lookupQ (gcOf f) (pyLower c) 1 * 1.5
         else if strContains (pyLower q) "shoes" && shoeCategories.contains (pyLower p.category)
         then s + 0.5
         else s * 0.7
       else s
     | none => s) = specStepCategory f q p s := by
  unfold specStepCategory gcOf
  rcases f.semantic with _ | sem
  · rcases optTruthy f.category with _ | c <;> simp
  · rcases optTruthy f.category with _ | c
    · simp
    · simp only []
      by_cases h : sem.category_confidence = []
      · simp [h]
      · by_cases he : pyLower p.category = pyLower c
        · simp [h, he]
        · by_cases hs : strContains (pyLower q) "shoes" = true <;>
            by_cases hm : pyLower p.category ∈ shoeCategories <;>
              simp [h, he, hs, hm]

/-- The hardcoded gender synonym lists of the rescorer (lines 772–776)
express exactly the clause builder's synonym expansion. -/
theorem gender_match_iff (g p : String) :
    ((g = "women" && ["women", "girls", "female"].contains p ||
      g = "men" && ["men", "boys", "male"].contains p ||
      (g = p)) = true) ↔ p ∈ genderExpansion g := by
  unfold genderExpansion
  by_cases h1 : g = "women"
  · subst h1
    simp only [if_pos rfl]
    simp
    intro h
    simp [← h]
  · by_cases h2 : g = "men"
    · subst h2
      simp [h1]
      intro h
      simp [← h]
    · simp [h1, h2]
      exact eq_comm

/-- The gender step of `nlp_score` is spec step 4 (the hardcoded synonym
lists of lines 772–776 coincide with the clause builder's expansion). -/
theorem gender_step_eq (f : Filters) (p : Product) (s : ℚ) :
    (match optTruthy f.gender with
     | some g =>
       if pyLower g = "women" && ["women", "girls", "female"].contains (pyLower p.gender) ||
          pyLower g = "men" && ["men", "boys", "male"].contains (pyLower p.gender) ||
          (pyLower g = pyLower p.gender)
       then s + 1 else s * 0.6
     | none => s) = specStepGender f p s := by
  unfold specStepGender
  rcases optTruthy f.gender with _ | g
  · rfl
  · simp only []
    by_cases hm : pyLower p.gender ∈ genderExpansion (pyLower g)
    · rw [if_pos ((gender_match_iff (pyLower g) (pyLower p.gender)).mpr hm), if_pos hm]
    · rw [if_neg (fun hb => hm ((gender_match_iff (pyLower g) (pyLower p.gender)).mp hb)),
          if_neg hm]

/-- The noun-phrase step of `nlp_score` is spec step 5. -/
theorem noun_step_eq (f : Filters) (p : Product) (s : ℚ) :
    (if !(npsOf f).isEmpty then
       (npsOf f).foldl
         (fun s ph => if strContains (pyLower p.title) ph then s + 0.8 else s) s
     else s) = specStepNoun f p s := by
  unfold specStepNoun npsOf
  rcases f.semantic with _ | sem
  · simp
  · simp only []
    by_cases h : sem.noun_phrases = []
    · simp [h]
    · simp [h, foldl_noun_bonus]

/-- C7: for every candidate, Filter Set and query, the rescorer's adjusted
score is exactly the spec's five-step pipeline — brand, color, category,
gender, noun phrases, in that order, each step compounding on the running
score, with the stated bonuses (confidence-weighted ×3.0 / ×2.0 / ×1.5,
general-shoes +0.5, gender +1.0, +0.8 per matching noun phrase) and
penalties (×0.3 / ×0.4 / ×0.7 / ×0.6). -/
theorem C7_rescorer_is_spec_pipeline (p : Product) (f : Filters) (q : String) :
    nlp_score p f q = rescore_spec p f q := by
  unfold nlp_score rescore_spec
  simp only [brand_step_eq, color_step_eq, category_step_eq, gender_step_eq, noun_step_eq]

/-- Stability of the stable descending sort, in filter form: the subsequence
of candidates with any fixed adjusted score is untouched by sorting. -/
theorem filter_key_insertionSort (l : List (Product × ℚ)) (s : ℚ) :
    (List.insertionSort descRel l).filter (fun x => x.2 == s) =
      l.filter (fun x => x.2 == s) := by
  have hperm :
      List.Perm ((List.insertionSort descRel l).filter (fun x => x.2 == s))
        (l.filter (fun x => x.2 == s)) :=
    (List.perm_insertionSort descRel l).filter _
  have hpw : (l.filter (fun x => x.2 == s)).Pairwise descRel := by
    refine List.pairwise_of_forall_mem_list ?_
    intro a ha b hb
    have ha2 : a.2 = s := by simpa using (List.mem_filter.mp ha).2
    have hb2 : b.2 = s := by simpa using (List.mem_filter.mp hb).2
    unfold descRel
    rw [ha2, hb2]
  have hsub : List.Sublist (l.filter (fun x => x.2 == s)) (List.insertionSort descRel l) :=
    List.sublist_insertionSort hpw (List.filter_sublist l)
  have hsub2 :
      List.Sublist (l.filter (fun x => x.2 == s))
        ((List.insertionSort descRel l).filter (fun x => x.2 == s)) := by
    have h3 := hsub.filter (fun x => x.2 == s)
    rwa [List.filter_eq_self.mpr
      (fun a ha => (List.mem_filter.mp ha).2)] at h3
  exact (hsub2.eq_of_length hperm.length_eq.symm).symm

/-- C8: the rescorer returns a permutation of the scored candidate list
(nothing dropped, nothing added), sorted descending by adjusted score, and
stably so: for every score value, the candidates holding it keep their
original retrieval order (their filtered subsequence is unchanged). -/
theorem C8_rescorer_permutation_sorted_stable (ps : List Product) (f : Filters)
    (q : String) :
    List.Perm (apply_nlp_scoring ps f q) (ps.map (fun p => (p, nlp_score p f q))) ∧
    (apply_nlp_scoring ps f q).Pairwise (fun a b => b.2 ≤ a.2) ∧
    ∀ s : ℚ, (apply_nlp_scoring ps f q).filter (fun x => x.2 == s) =
      (ps.map (fun p => (p, nlp_score p f q))).filter (fun x => x.2 == s) := by
  unfold apply_nlp_scoring
  by_cases h : ps.isEmpty
  · have : ps = [] := by simpa using h
    subst this
    simp
  · simp only [h, Bool.false_eq_true, if_false]
    refine ⟨List.perm_insertionSort descRel _, ?_, fun s => filter_key_insertionSort _ s⟩
    exact List.sorted_insertionSort descRel _

/-- The MongoDB sort order unfolded: score descending, ties broken by price
ascending, then by rating descending. -/
theorem mongoRel_iff (a b : Product × ℚ) :
    mongoRel a b ↔
      (b.2 < a.2 ∨ (a.2 = b.2 ∧
        (a.1.price < b.1.price ∨
          (a.1.price = b.1.price ∧ b.1.rating ≤ a.1.rating)))) := by
  unfold mongoRel mongoKey
  rw [Prod.Lex.le_iff, Prod.Lex.le_iff]
  simp only [neg_lt_neg_iff, neg_inj, neg_le_neg_iff]

/-- C9: the simple-backend composite score is total on candidates with
non-negative price — the divisor `price + 1` is nonzero (in particular at
`price = 0`, where it equals `1` and the term contributes exactly `100`),
and the division genuinely inverts the divisor; the returned ranking is
ordered by composite score descending, then price ascending, then rating
descending; and at most 50 results are returned. -/
theorem C9_mongo_score_safe_and_ranking (l : List Product) :
    (∀ p : Product, 0 ≤ p.price →
      p.price + 1 ≠ 0 ∧
      (100 : ℚ) / (p.price + 1) * (p.price + 1) = 100 ∧
      (p.price = 0 →
        mongo_score p = p.rating * 2 + (if 0 < p.stock then 5 else 0) + 100)) ∧
    (mongo_rank l).Pairwise (fun a b => b.2 < a.2 ∨ (a.2 = b.2 ∧
      (a.1.price < b.1.price ∨
        (a.1.price = b.1.price ∧ b.1.rating ≤ a.1.rating)))) ∧
    (mongo_rank l).length ≤ 50 := by
  refine ⟨fun p hp => ?_, ?_, ?_⟩
  · have hnz : p.price + 1 ≠ 0 := by positivity
    refine ⟨hnz, div_mul_cancel₀ _ hnz, fun h0 => ?_⟩
    unfold mongo_score
    rw [h0]
    norm_num
  · unfold mongo_rank
    have hs := List.sorted_insertionSort mongoRel (l.map (fun p => (p, mongo_score p)))
    have hs' := hs.sublist ((List.insertionSort mongoRel
      (l.map (fun p => (p, mongo_score p)))).take_sublist 50)
    exact hs'.imp (fun h => (mongoRel_iff _ _).mp h)
  · unfold mongo_rank
    exact List.length_take_le _ _

/-- Witness for C9 at `price = 0`: the zero-price divisor is `1` and the
composite score of a concrete in-stock candidate evaluates as stated. -/
theorem C9_witness :
    ((0 : ℚ) + 1 ≠ 0) ∧
    ((100 : ℚ) / ((0 : ℚ) + 1) * ((0 : ℚ) + 1) = 100) ∧
    (mongo_score (Product.mk "t" "b" "c" "k" "g" 0 4 1 none) =
      (4 : ℚ) * 2 + (if (0 : ℤ) < 1 then 5 else 0) + 100) := by
  have h := (C9_mongo_score_safe_and_ranking []).1
      (Product.mk "t" "b" "c" "k" "g" 0 4 1 none) (le_refl 0)
  exact ⟨h.1, h.2.1, h.2.2 rfl⟩

/-- The packaged text conditions are only text predicates. -/
theorem priceLte_not_mem_textConds (w : Int) (l : List String) :
    MongoPred.priceLte w ∉ textConds l := by
  unfold textConds
  split <;> simp

/-- The packaged text conditions contain no lower price predicate either. -/
theorem priceGte_not_mem_textConds (w : Int) (l : List String) :
    MongoPred.priceGte w ∉ textConds l := by
  unfold textConds
  split <;> simp

/-- The keyword text block never contains a price predicate. -/
theorem priceLte_not_mem_textBlock (f : Filters) (q : String) (w : Int) :
    MongoPred.priceLte w ∉ mongoTextBlock f q := by
  unfold mongoTextBlock
  split
  · exact priceLte_not_mem_textConds w _
  · simp

/-- The keyword text block never contains a lower price predicate either. -/
theorem priceGte_not_mem_textBlock (f : Filters) (q : String) (w : Int) :
    MongoPred.priceGte w ∉ mongoTextBlock f q := by
  unfold mongoTextBlock
  split
  · exact priceGte_not_mem_textConds w _
  · simp

/-- C10: an extracted price bound of `0` is treated as unset everywhere.
(1) After the entity stage produced `price_max = 0`, the plain-regex stage
still runs: its under-list is consulted, and when it fails the over-list can
still set `price_min`, leaving the zero bound in place.  (2) A zero
`price_max` emits no Elasticsearch range filter and no MongoDB price
predicate; (3) likewise for a zero `price_min`. -/
theorem C10_zero_bound_is_unset :
    (∀ (ents : List (String × String)) (cs : List Char) (v : Nat),
      extractPriceEntities ents cs = (some 0, none) →
      firstCapt underNLP cs = none →
      firstCapt overNLP cs = some v →
      extractPriceNLP ents cs = (some 0, some (v : Int))) ∧
    (∀ f : Filters, f.price_max = some 0 →
      (∀ w, EsFilter.priceLte w ∉ es_filter_clauses f) ∧
      (∀ q w, MongoPred.priceLte w ∉ mongo_and_clauses f q)) ∧
    (∀ f : Filters, f.price_min = some 0 →
      (∀ w, EsFilter.priceGte w ∉ es_filter_clauses f) ∧
      (∀ q w, MongoPred.priceGte w ∉ mongo_and_clauses f q)) := by
  refine ⟨fun ents cs v h1 h2 h3 => ?_, fun f hmax => ⟨fun w hw => ?_, fun q w hw => ?_⟩,
    fun f hmin => ⟨fun w hw => ?_, fun q w hw => ?_⟩⟩
  · unfold extractPriceNLP
    rw [h1]
    unfold applyRegexFallback
    simp [pyTruthyInt, h2, h3]
  · rw [es_filter_clauses, hmax] at hw
    rcases List.mem_append.mp hw with h | h
    · simp [pyTruthyInt] at h
    · split at h <;> simp at h
  · rw [mongo_and_clauses, hmax] at hw
    rcases List.mem_append.mp hw with h | h
    · rcases List.mem_append.mp h with h | h
      · rcases List.mem_append.mp h with h | h
        · rcases List.mem_append.mp h with h | h
          · rcases List.mem_append.mp h with h | h
            · rcases List.mem_append.mp h with h | h
              · split at h <;> simp at h
              · split at h <;> simp at h
            · split at h <;> simp at h
          · split at h <;> simp at h
        · simp [pyTruthyInt] at h
      · split at h <;> simp at h
    · exact priceLte_not_mem_textBlock f q w h
  · rw [es_filter_clauses, hmin] at hw
    rcases List.mem_append.mp hw with h | h
    · split at h <;> simp at h
    · simp [pyTruthyInt] at h
  · rw [mongo_and_clauses, hmin] at hw
    rcases List.mem_append.mp hw with h | h
    · rcases List.mem_append.mp h with h | h
      · rcases List.mem_append.mp h with h | h
        · rcases List.mem_append.mp h with h | h
          · rcases List.mem_append.mp h with h | h
            · rcases List.mem_append.mp h with h | h
              · split at h <;> simp at h
              · split at h <;> simp at h
            · split at h <;> simp at h
          · split at h <;> simp at h
        · split at h <;> simp at h
      · simp [pyTruthyInt] at h
    · exact priceGte_not_mem_textBlock f q w h

/-- Witness for C10: `$0` MONEY entity sets `price_max = 0`; the regex stage
still fires on `"cheap over 50"` and sets `price_min = 50`; a Filter Set with
`price_max = some 0` and one with `price_min = some 0` emit no price filters
in either backend. -/
theorem C10_witness :
    extractPriceNLP [("MONEY", "$0")] "cheap over 50".toList = (some 0, some 50) ∧
    EsFilter.priceLte 7 ∉
      es_filter_clauses ⟨none, none, none, some 0, none, none, [], [], none⟩ ∧
    MongoPred.priceLte 7 ∉
      mongo_and_clauses ⟨none, none, none, some 0, none, none, [], [], none⟩ "x" ∧
    EsFilter.priceGte 7 ∉
      es_filter_clauses ⟨none, none, none, none, some 0, none, [], [], none⟩ ∧
    MongoPred.priceGte 7 ∉
      mongo_and_clauses ⟨none, none, none, none, some 0, none, [], [], none⟩ "x" :=
  ⟨C10_zero_bound_is_unset.1 [("MONEY", "$0")] "cheap over 50".toList 50
      (by decide) (by decide) (by decide),
   (C10_zero_bound_is_unset.2.1 ⟨none, none, none, some 0, none, none, [], [], none⟩
      rfl).1 7,
   (C10_zero_bound_is_unset.2.1 ⟨none, none, none, some 0, none, none, [], [], none⟩
      rfl).2 "x" 7,
   (C10_zero_bound_is_unset.2.2 ⟨none, none, none, none, some 0, none, [], [], none⟩
      rfl).1 7,
   (C10_zero_bound_is_unset.2.2 ⟨none, none, none, none, some 0, none, [], [], none⟩
      rfl).2 "x" 7⟩

/-- Witness for C6: the degraded interpretation of `"red nike sneakers"`
resolves all three attributes and the builder emits exactly one exact clause
for each, so the brand-clause count is exactly `1` and the phrase-clause
count `0`. -/
theorem C6_degraded_witness :
    (es_should_clauses "red nike sneakers"
        (parse_query_fallback "red nike sneakers")).countP isBrandClause ≤ 1 ∧
    (es_should_clauses "red nike sneakers"
        (parse_query_fallback "red nike sneakers")).countP isPhraseClause = 0 :=
  ⟨((C6_degraded_semantics_and_single_exact_branch.2.2 "red nike sneakers"
      (parse_query_fallback "red nike sneakers") rfl).1).1,
   ((C6_degraded_semantics_and_single_exact_branch.2.2 "red nike sneakers"
      (parse_query_fallback "red nike sneakers") rfl).1).2.2.2⟩

end NLPSearch
